import Mathlib

set_option autoImplicit false

namespace NodejsWebTools

/-!
Shallow embedding of the scrape-and-persist core of the
`nodejs-web-tools` repository: the retry engine and price parser from
`src/utils/helpers.ts`, the browser-session cleanup and the single- and
multi-source scrape flows from `src/core/base-scraper.ts`, the
persistence gateway from `src/database/supabase-client.ts`, and the save
paths of the gold-price scraper.
-/

/-- Result of a JavaScript numeric computation: a finite value (modelled
as a rational, standing for the decimal the string denotes), one of the
two infinities, or NaN. -/
inductive JsNum where
  | fin (q : ℚ)
  | posInf
  | negInf
  | nan
  deriving DecidableEq, Repr

/-- Characters in the JavaScript whitespace class `\s` that can occur in
the ASCII price strings handled here (space, tab, and the line and form
feeds). -/
def jsWhitespace (c : Char) : Bool :=
  c = ' ' || c = '\t' || c = '\n' || c = '\r' ||
  c.toNat = 11 || c.toNat = 12

/-- Character class removed by the cleaning step of `parsePrice`
(the regex `[$,\s€£¥]` applied globally): dollar sign, comma, whitespace,
euro, pound and yen signs. -/
def isStrippedChar (c : Char) : Bool :=
  c = '$' || c = ',' || c = '€' || c = '£' || c = '¥' || jsWhitespace c

/-- Numeric value of a run of decimal digits, most significant first. -/
def digitsToNat (ds : List Char) : ℕ :=
  ds.foldl (fun acc c => 10 * acc + (c.toNat - '0'.toNat)) 0

/-- Digits of an exponent part; an exponent marker without digits
contributes nothing (JavaScript `parseFloat` ignores it). -/
def readSignedExpDigits (cs : List Char) : ℤ :=
  match cs with
  | '+' :: rest => (digitsToNat (rest.takeWhile Char.isDigit) : ℤ)
  | '-' :: rest => -(digitsToNat (rest.takeWhile Char.isDigit) : ℤ)
  | rest => (digitsToNat (rest.takeWhile Char.isDigit) : ℤ)

/-- Optional exponent part `e`/`E` followed by an optionally signed digit
run; anything else contributes exponent 0. -/
def readExponent (cs : List Char) : ℤ :=
  match cs with
  | 'e' :: rest => readSignedExpDigits rest
  | 'E' :: rest => readSignedExpDigits rest
  | _ => 0

/-- Decimal significand with optional fractional part and optional
exponent, reading the longest valid prefix; `none` when no digit is
present (which JavaScript `parseFloat` reports as NaN). -/
def parseDecimal (cs : List Char) : Option ℚ :=
  let intDs := cs.takeWhile Char.isDigit
  let r1 := cs.dropWhile Char.isDigit
  let fracDs :=
    match r1 with
    | '.' :: rest => rest.takeWhile Char.isDigit
    | _ => []
  let r2 :=
    match r1 with
    | '.' :: rest => rest.dropWhile Char.isDigit
    | _ => r1
  if intDs.isEmpty && fracDs.isEmpty then none
  else
    let mantissa : ℚ :=
      (digitsToNat intDs : ℚ) + (digitsToNat fracDs : ℚ) / (10 : ℚ) ^ fracDs.length
    some (mantissa * (10 : ℚ) ^ readExponent r2)

/-- Body of `parseFloat` after the optional sign: either the literal
`Infinity` or a decimal number. -/
def parseFloatSigned (sign : ℚ) (cs : List Char) : JsNum :=
  if cs.take 8 = "Infinity".data then
    (if sign < 0 then .negInf else .posInf)
  else
    match parseDecimal cs with
    | none => .nan
    | some q => .fin (sign * q)

/-- Model of the JavaScript builtin `parseFloat` as `parsePrice` uses it:
skip leading whitespace, read an optional sign, then either the literal
`Infinity` or a decimal significand with optional fraction and exponent;
the longest valid prefix is taken and trailing characters are ignored;
with no numeric prefix the result is NaN. -/
def parseFloat (s : String) : JsNum :=
  match s.data.dropWhile jsWhitespace with
  | '+' :: rest => parseFloatSigned 1 rest
  | '-' :: rest => parseFloatSigned (-1) rest
  | rest => parseFloatSigned 1 rest

/-- Model of `parsePrice` in `src/utils/helpers.ts`: an empty (falsy)
input yields 0; otherwise currency symbols, commas and whitespace are
removed and the result is `parseFloat` of the cleaned text, with NaN
mapped to 0. -/
def parsePrice (priceText : String) : JsNum :=
  if priceText = "" then .fin 0
  else
    let cleanText := String.mk (priceText.data.filter (fun c => !isStrippedChar c))
    match parseFloat cleanText with
    | .nan => .fin 0
    | v => v

/-- Model of the JavaScript comparison `price <= 0` on a parsed price
(`NaN <= 0` is false in JavaScript, but `parsePrice` never returns NaN). -/
def jsLeZero : JsNum → Bool
  | .fin q => decide (q ≤ 0)
  | .negInf => true
  | .posInf => false
  | .nan => false

/-- Finiteness predicate on a JavaScript number, as in `Number.isFinite`. -/
def JsNum.isFinite : JsNum → Bool
  | .fin _ => true
  | _ => false

/-!
Retry engine, `withRetry` in `src/utils/helpers.ts`.  The source loops
`for (let i = 0; i < maxRetries; i++)`: on every iteration after the
first it first sleeps a random delay in `[delayMs, 2*delayMs]`, then
invokes the operation; a success is returned at once, an error on the
last iteration (`i === maxRetries - 1`) is re-thrown, and when the loop
body never runs (non-positive budget) the function returns `null`.
The operation is modelled as a function from the attempt index to an
`Except` outcome, and the run is recorded as a trace of delay and
invocation events together with the final outcome.
-/

/-- Event in a run of `withRetry`: one randomized backoff sleep, or one
invocation of the wrapped operation with its outcome. -/
inductive RetryEvent (ε α : Type) where
  | delayed
  | invoked (result : Except ε α)
  deriving Repr

/-- Final outcome of `withRetry`: the operation's success value, the
re-raised error of the final attempt, or the `null` that is returned when
the loop body never runs. -/
inductive RetryOutcome (ε α : Type) where
  | success (a : α)
  | failure (e : ε)
  | nullResult
  deriving DecidableEq, Repr

variable {ε α : Type}

/-- Loop of `withRetry`, with `i` the current attempt index and
`remaining` the number of loop iterations still allowed
(`remaining = maxRetries - i`, so the test `i === maxRetries - 1` of the
source becomes `remaining = 1`).  Each iteration prepends the randomized
delay when `i > 0`, then invokes the operation. -/
def withRetryGo (fn : ℕ → Except ε α) : ℕ → ℕ → List (RetryEvent ε α) × RetryOutcome ε α
  | _, 0 => ([], .nullResult)
  | i, r + 1 =>
    let pre : List (RetryEvent ε α) := if i = 0 then [] else [.delayed]
    match fn i with
    | .ok a => (pre ++ [.invoked (.ok a)], .success a)
    | .error e =>
      if r = 0 then (pre ++ [.invoked (.error e)], .failure e)
      else
        let rest := withRetryGo fn (i + 1) r
        (pre ++ .invoked (.error e) :: rest.1, rest.2)

/-- Model of `withRetry fn maxRetries delayMs`: run the loop from attempt
index 0 with `maxRetries` iterations allowed (a non-positive budget means
the loop body never runs and `null` is returned).  The delay duration is
abstracted into the `delayed` event. -/
def withRetry (fn : ℕ → Except ε α) (maxRetries : ℤ) :
    List (RetryEvent ε α) × RetryOutcome ε α :=
  withRetryGo fn 0 maxRetries.toNat

/-- Number of times the wrapped operation was invoked in a trace. -/
def invokeCount (tr : List (RetryEvent ε α)) : ℕ :=
  tr.countP (fun ev => match ev with | .invoked _ => true | _ => false)

/-- Model of `BaseScraper.scrape` in `src/core/base-scraper.ts`: the
subclass `performScrape` implementation is run through `withRetry` with
the configured `retryCount` as budget (and a 2000 ms base delay). -/
def scrape (performScrape : ℕ → Except ε α) (retryCount : ℤ) :
    List (RetryEvent ε α) × RetryOutcome ε α :=
  withRetry performScrape retryCount

@[simp]
lemma invokeCount_nil : invokeCount ([] : List (RetryEvent ε α)) = 0 := rfl

@[simp]
lemma invokeCount_cons_delayed (tr : List (RetryEvent ε α)) :
    invokeCount (.delayed :: tr) = invokeCount tr := by
  simp [invokeCount, List.countP_cons]

@[simp]
lemma invokeCount_cons_invoked (res : Except ε α) (tr : List (RetryEvent ε α)) :
    invokeCount (.invoked res :: tr) = invokeCount tr + 1 := by
  simp [invokeCount, List.countP_cons]

@[simp]
lemma invokeCount_append (tr1 tr2 : List (RetryEvent ε α)) :
    invokeCount (tr1 ++ tr2) = invokeCount tr1 + invokeCount tr2 :=
  List.countP_append _ _ _

lemma invokeCount_pre (i : ℕ) :
    invokeCount (if i = 0 then [] else [(.delayed : RetryEvent ε α)]) = 0 := by
  by_cases h : i = 0 <;> simp [h]

/-- Run of the retry loop when the operation fails on the attempts before
`k` and succeeds on attempt `k`, which lies inside the remaining budget:
the success value is returned and the operation is invoked once per
attempt up to and including `k`. -/
lemma withRetryGo_success (fn : ℕ → Except ε α) :
    ∀ (r i k : ℕ) (a : α), i ≤ k → k < i + r →
    (∀ j, i ≤ j → j < k → (fn j).isOk = false) → fn k = .ok a →
    (withRetryGo fn i r).2 = .success a ∧
    invokeCount (withRetryGo fn i r).1 = k - i + 1 := by
  intro r
  induction r with
  | zero => intro i k a h1 h2 _ _; omega
  | succ r ih =>
    intro i k a hik hkr hfail hok
    by_cases hk : k = i
    · subst hk
      rw [withRetryGo, hok]
      refine ⟨rfl, ?_⟩
      simp [invokeCount_pre]
    · have hlt : i < k := by omega
      have hno : (fn i).isOk = false := hfail i (le_refl i) hlt
      obtain ⟨e, he⟩ : ∃ e, fn i = .error e := by
        cases h : fn i with
        | ok a => rw [h] at hno; simp [Except.isOk, Except.toBool] at hno
        | error e => exact ⟨e, rfl⟩
      have hr : r ≠ 0 := by omega
      obtain ⟨hout, hcnt⟩ := ih (i + 1) k a (by omega) (by omega)
        (fun j hj1 hj2 => hfail j (by omega) hj2) hok
      rw [withRetryGo, he]
      simp only [hr, if_false]
      refine ⟨hout, ?_⟩
      simp [invokeCount_pre, hcnt]
      omega

/-- Run of the retry loop when the operation fails on every attempt and
at least one iteration remains: the error of the final attempt is
re-raised, and the operation is invoked once per remaining iteration. -/
lemma withRetryGo_allFail (fn : ℕ → Except ε α)
    (hfail : ∀ j, (fn j).isOk = false) :
    ∀ (r i : ℕ), 1 ≤ r →
    ∃ e, fn (i + r - 1) = .error e ∧
      (withRetryGo fn i r).2 = .failure e ∧
      invokeCount (withRetryGo fn i r).1 = r := by
  intro r
  induction r with
  | zero => intro i h; omega
  | succ r ih =>
    intro i _
    obtain ⟨e, he⟩ : ∃ e, fn i = .error e := by
      cases h : fn i with
      | ok a => have := hfail i; rw [h] at this; simp [Except.isOk, Except.toBool] at this
      | error e => exact ⟨e, rfl⟩
    by_cases hr : r = 0
    · subst hr
      refine ⟨e, by simpa using he, ?_, ?_⟩
      · rw [withRetryGo, he]; simp
      · rw [withRetryGo, he]; simp [invokeCount_pre]
    · obtain ⟨e2, he2, hout, hcnt⟩ := ih (i + 1) (by omega)
      refine ⟨e2, ?_, ?_, ?_⟩
      · have : i + (r + 1) - 1 = i + 1 + r - 1 := by omega
        rw [this]; exact he2
      · rw [withRetryGo, he]; simp only [hr, if_false]; exact hout
      · rw [withRetryGo, he]; simp only [hr, if_false]
        simp [invokeCount_pre, hcnt]

/-- Run of `withRetry` with a positive budget: the very first trace event
is an invocation of the operation at attempt 0, with no preceding delay. -/
lemma withRetry_head (fn : ℕ → Except ε α) (m : ℤ) (h : 1 ≤ m) :
    (withRetry fn m).1.head? = some (.invoked (fn 0)) := by
  obtain ⟨r, hr⟩ : ∃ r, m.toNat = r + 1 := ⟨m.toNat - 1, by omega⟩
  rw [withRetry, hr, withRetryGo]
  cases h0 : fn 0 with
  | ok a => simp
  | error e => by_cases hrr : r = 0 <;> simp [hrr]

/-- C1: for every operation and attempt budget `maxAttempts >= 1`, if the
operation fails on its first `k` attempts and succeeds on attempt `k + 1`
with `maxAttempts > k`, `withRetry` returns the success value and the
operation is invoked exactly `k + 1` times; if the operation fails on
every attempt, `withRetry` invokes it exactly `maxAttempts` times and
re-raises the error of the final attempt; and the first attempt is made
with no preceding delay. -/
theorem withRetry_retry_semantics (fn : ℕ → Except ε α) (maxAttempts : ℤ)
    (hpos : 1 ≤ maxAttempts) :
    (∀ (k : ℕ) (a : α), (k : ℤ) < maxAttempts →
      (∀ i, i < k → (fn i).isOk = false) → fn k = .ok a →
      (withRetry fn maxAttempts).2 = .success a ∧
      invokeCount (withRetry fn maxAttempts).1 = k + 1) ∧
    ((∀ i, (fn i).isOk = false) →
      ∃ e, fn (maxAttempts.toNat - 1) = .error e ∧
        (withRetry fn maxAttempts).2 = .failure e ∧
        invokeCount (withRetry fn maxAttempts).1 = maxAttempts.toNat) ∧
    (withRetry fn maxAttempts).1.head? = some (.invoked (fn 0)) := by
  refine ⟨?_, ?_, withRetry_head fn maxAttempts hpos⟩
  · intro k a hk hfail hok
    have h := withRetryGo_success fn maxAttempts.toNat 0 k a (Nat.zero_le k)
      (by omega) (fun j _ hj => hfail j hj) hok
    rw [withRetry]
    exact ⟨h.1, by rw [h.2]; omega⟩
  · intro hfail
    have h := withRetryGo_allFail fn hfail maxAttempts.toNat 0 (by omega)
    obtain ⟨e, he, hout, hcnt⟩ := h
    exact ⟨e, by simpa using he, by rw [withRetry]; exact hout, by rw [withRetry]; exact hcnt⟩

/-- Witness for C1 at a concrete operation that fails once and succeeds
on the second attempt, with budget 3. -/
theorem withRetry_retry_semantics_witness :
    (withRetry (fun i => if i = 0 then (.error () : Except Unit ℕ) else .ok 7) 3).2 =
      .success 7 ∧
    invokeCount (withRetry (fun i => if i = 0 then (.error () : Except Unit ℕ) else .ok 7) 3).1 = 2 :=
  (withRetry_retry_semantics (fun i => if i = 0 then (.error () : Except Unit ℕ) else .ok 7)
      3 (by norm_num)).1 1 7 (by norm_num)
    (fun i hi => by
      have : i = 0 := by omega
      subst this
      rfl)
    rfl

/-- C10: a non-positive attempt budget makes `withRetry` resolve to
`null` without ever invoking the wrapped operation and without raising
any error, so the public `scrape` entry point resolves to `null` (neither
an observation nor an error) when configured with `retryCount <= 0`. -/
theorem withRetry_nonpositive_budget (fn : ℕ → Except ε α) (maxRetries : ℤ)
    (h : maxRetries ≤ 0) :
    withRetry fn maxRetries = ([], .nullResult) ∧
    scrape fn maxRetries = ([], .nullResult) ∧
    invokeCount (withRetry fn maxRetries).1 = 0 := by
  have ht : maxRetries.toNat = 0 := by omega
  refine ⟨?_, ?_, ?_⟩ <;> simp [scrape, withRetry, ht, withRetryGo]

/-- Witness for C10 at budget `-1` and an always-succeeding operation:
its success value is never seen because it is never invoked. -/
theorem withRetry_nonpositive_budget_witness :
    scrape (fun _ => (.ok 5 : Except Unit ℕ)) (-1) = ([], .nullResult) :=
  (withRetry_nonpositive_budget (fun _ => (.ok 5 : Except Unit ℕ)) (-1) (by norm_num)).2.1

/-!
Data model and scrape flows.  `DataSourceConfig`, `PriceData`,
`MultiPriceData` and `GoldPriceData` follow `src/types`; the flows follow
the multi-source revision of `src/core/base-scraper.ts` and the
gold-price scraper.  The browser environment is abstracted into what it
hands the flow per source: a navigation failure, an element-wait failure,
or the trimmed text content of the matched element.
-/

/-- Configuration of one data source (`DataSourceConfig` in `src/types`):
name, target URL, CSS selector, output field name, and optional currency
(defaulting to USD where it is consumed). -/
structure DataSourceConfig where
  name : String
  url : String
  selector : String
  fieldName : String
  currency : Option String
  deriving DecidableEq, Repr

/-- Price observation from one source (`PriceData` in `src/types`). -/
structure PriceData where
  price : JsNum
  source : String
  currency : String
  timestamp : String
  deriving DecidableEq, Repr

/-- Single-source gold price observation (`GoldPriceData` in `src/types`,
as assembled by the gold-price scraper). -/
structure GoldPriceData where
  price : JsNum
  created_at : String
  source : String
  currency : String
  time_period : String
  deriving DecidableEq, Repr

/-- Composite observation of a multi-source batch (`MultiPriceData` in
`src/types`): the prices record is modelled as an insertion-ordered
association list from field name to price data, and the compatibility
`price` field holds what the JavaScript expression `prices[0]?.price`
yields (the entry under the key "0", usually absent). -/
structure MultiPriceData where
  price : Option JsNum
  source : String
  prices : List (String × PriceData)
  created_at : String
  time_period : String
  deriving DecidableEq, Repr

/-- Multi-source configuration (`MultiSourceConfig` in `src/types`) after
`setMultiSourceConfig` applied its defaults (`sequential = true`,
`delayBetweenSources = 2000` unless overridden). -/
structure MultiSourceConfig where
  sources : List DataSourceConfig
  sequential : Bool
  delayBetweenSources : ℕ
  deriving DecidableEq, Repr

/-- JavaScript object update `m[k] = v` on a record modelled as an
insertion-ordered association list: an existing key keeps its position
and receives the new value, a new key is appended at the end. -/
def recordSet {β : Type} (m : List (String × β)) (k : String) (v : β) :
    List (String × β) :=
  match m with
  | [] => [(k, v)]
  | (k1, v1) :: rest =>
    if k1 = k then (k, v) :: rest else (k1, v1) :: recordSet rest k v

/-- JavaScript object read `m[k]` on a record modelled as an association
list (`none` for `undefined`). -/
def recordGet {β : Type} (m : List (String × β)) (k : String) : Option β :=
  match m with
  | [] => none
  | (k1, v1) :: rest => if k1 = k then some v1 else recordGet rest k

/-- JavaScript string defaulting `v || d`: an absent or empty (falsy)
value falls back to the default. -/
def jsOrDefault (v : Option String) (d : String) : String :=
  match v with
  | none => d
  | some s => if s = "" then d else s

/-- Environment one source presents to the scrape flow: a navigation
failure, an element-wait failure, or the trimmed text recovered from the
matched element (the empty string when the element had no text). -/
inductive SourceEnv where
  | navError
  | elementError
  | text (s : String)
  deriving DecidableEq, Repr

/-- Errors raised by the scrape flows, one constructor per `throw` site
relevant here. -/
inductive ScrapeError where
  | navigationFailed
  | elementNotFound
  | emptyPriceText (selector : String)
  | invalidPrice (text : String) (price : JsNum)
  | notConfigured
  | allSourcesFailed
  deriving DecidableEq, Repr

/-- Model of `scrapeFromSingleSource` in `src/core/base-scraper.ts`:
navigate to the source URL, read the element text, reject an empty text,
parse the price, reject a parsed price with `price <= 0`, and otherwise
assemble the `PriceData` observation stamped with the current time. -/
def scrapeFromSingleSource (source : DataSourceConfig) (env : SourceEnv)
    (now : String) : Except ScrapeError PriceData :=
  match env with
  | .navError => .error .navigationFailed
  | .elementError => .error .elementNotFound
  | .text priceText =>
    if priceText = "" then .error (.emptyPriceText source.selector)
    else
      let price := parsePrice priceText
      if jsLeZero price then .error (.invalidPrice priceText price)
      else .ok { price := price, source := source.url,
                 currency := jsOrDefault source.currency "USD", timestamp := now }

/-- Model of `GoldPriceScraper.performScrape` in
`src/scrapers/gold-price-scraper.ts` after navigation and page analysis:
`priceResult` is the outcome of `findPriceElementSmart` (`none` when no
selector strategy produced a nonempty text, a hard error raised after a
diagnostic screenshot); otherwise the text is parsed, a parsed price with
`price <= 0` raises a parse error, and otherwise the `GoldPriceData`
observation is assembled with the fixed target URL, currency USD and
period label 1d. -/
def performScrape (targetUrl : String) (priceResult : Option String)
    (now : String) : Except ScrapeError GoldPriceData :=
  match priceResult with
  | none => .error .elementNotFound
  | some text =>
    let price := parsePrice text
    if jsLeZero price then .error (.invalidPrice text price)
    else .ok { price := price, created_at := now, source := targetUrl,
               currency := "USD", time_period := "1d" }

/-- Event in a run of the multi-source loop: one attempt on the source at
a list position, or one inter-source sleep. -/
inductive MultiEvent where
  | attempted (i : ℕ)
  | delayed
  deriving DecidableEq, Repr

/-- Sequential loop of `performMultiSourceScrape`: for each source in
order, scrape it; on success store the observation in the prices record
under the source's field name and, when it is not the last source and a
nonzero inter-source delay is configured, sleep; on failure log a warning
and continue with the next source immediately.  Returns the final prices
record and the trace of attempts and sleeps. -/
def multiScrapeAux (envs : ℕ → SourceEnv) (now : String)
    (delayBetweenSources : ℕ) :
    List DataSourceConfig → ℕ → List (String × PriceData) →
    List (String × PriceData) × List MultiEvent
  | [], _, acc => (acc, [])
  | source :: rest, i, acc =>
    match scrapeFromSingleSource source (envs i) now with
    | .ok priceData =>
      let acc2 := recordSet acc source.fieldName priceData
      let delayEvs : List MultiEvent :=
        if rest = [] ∨ delayBetweenSources = 0 then [] else [.delayed]
      let next := multiScrapeAux envs now delayBetweenSources rest (i + 1) acc2
      (next.1, .attempted i :: (delayEvs ++ next.2))
    | .error _ =>
      let next := multiScrapeAux envs now delayBetweenSources rest (i + 1) acc
      (next.1, .attempted i :: next.2)

/-- Model of `performMultiSourceScrape` in `src/core/base-scraper.ts`:
without a configured multi-source setup it throws at once; in sequential
mode it runs the loop over the sources, while the unimplemented parallel
branch only logs a warning and scrapes nothing; if no source succeeded it
throws the aggregate all-sources-failed error, and otherwise it assembles
the `MultiPriceData` stamped with the current time and the fixed
"realtime" period. -/
def performMultiSourceScrape (cfg : Option MultiSourceConfig)
    (envs : ℕ → SourceEnv) (now : String) :
    Except ScrapeError MultiPriceData × List MultiEvent :=
  match cfg with
  | none => (.error .notConfigured, [])
  | some c =>
    let run :=
      if c.sequential then multiScrapeAux envs now c.delayBetweenSources c.sources 0 []
      else ([], [])
    if run.1.isEmpty then (.error .allSourcesFailed, run.2)
    else
      (.ok { price := (recordGet run.1 "0").map (fun pd => pd.price),
             source := String.intercalate ", " (c.sources.map (fun s => s.url)),
             prices := run.1,
             created_at := now,
             time_period := "realtime" }, run.2)

/-- Model of `BaseScraper.scrapeMultiSource`: the unconfigured case
throws before the retry engine is entered; otherwise the whole batch is
run through `withRetry` with the configured retry budget. -/
def scrapeMultiSource (cfg : Option MultiSourceConfig)
    (envs : ℕ → SourceEnv) (now : String) (retryCount : ℤ) :
    RetryOutcome ScrapeError MultiPriceData :=
  match cfg with
  | none => .failure .notConfigured
  | some c =>
    (withRetry (fun _ => (performMultiSourceScrape (some c) envs now).1) retryCount).2

/-!
Persistence gateway (`src/database/supabase-client.ts`) and the save
paths of the gold-price scraper.  A database row is modelled as an
insertion-ordered association list from column name to field value; the
store's behaviour on one insert call is abstracted into an outcome.
-/

/-- Value of one column in a row handed to the store. -/
inductive FieldValue where
  | num (v : JsNum)
  | str (s : String)
  deriving DecidableEq, Repr

/-- Behaviour the store client exhibits on one insert call: a clean
insert, an error result returned in the response, or a thrown
exception. -/
inductive StoreOutcome where
  | success
  | errorResult
  | thrown
  deriving DecidableEq, Repr

/-- Body of `SupabaseDatabase.insertRecord` before its catch handler: a
thrown store-client exception escapes as `Except.error`, an error result
in the response yields `false` after logging, and a clean insert yields
`true`. -/
def insertRecordBody (record : List (String × FieldValue))
    (outcome : StoreOutcome) : Except Unit Bool :=
  match outcome with
  | .thrown => .error ()
  | .errorResult => .ok false
  | .success => .ok true

/-- Model of `SupabaseDatabase.insertRecord`: the body wrapped in the
catch handler, which logs a thrown store-client exception and converts it
into the return value `false`. -/
def insertRecord (record : List (String × FieldValue))
    (outcome : StoreOutcome) : Except Unit Bool :=
  match insertRecordBody record outcome with
  | .error _ => .ok false
  | r => r

/-- Row built by `GoldPriceScraper.saveToDatabase` in
`src/scrapers/gold-price-scraper.ts` from a scraped observation, exactly
the fields the source lists. -/
def saveToDatabaseRecord (data : GoldPriceData) : List (String × FieldValue) :=
  [("price", .num data.price),
   ("created_at", .str data.created_at),
   ("source", .str data.source),
   ("currency", .str data.currency),
   ("time_period", .str data.time_period)]

/-- Model of `GoldPriceScraper.saveToDatabase`: build the row and hand it
to the gateway's single-row insert. -/
def saveToDatabase (data : GoldPriceData) (outcome : StoreOutcome) :
    Except Unit Bool :=
  insertRecord (saveToDatabaseRecord data) outcome

/-- Row built by `saveMultiPriceToDatabase` in the multi-source revision
of the gold-price scraper, assuming the `ny_price` entry is present: the
base columns read from the `ny_price` entry and the batch stamps,
followed by one numeric column per entry of the prices record. -/
def saveMultiPriceRecord (data : MultiPriceData) (nyPd : PriceData) :
    List (String × FieldValue) :=
  let record0 : List (String × FieldValue) :=
    [("price", .num nyPd.price),
     ("currency", .str nyPd.currency),
     ("source", .str nyPd.source),
     ("created_at", .str data.created_at),
     ("time_period", .str (if data.time_period = "" then "realtime" else data.time_period))]
  data.prices.foldl (fun rec kv => recordSet rec kv.1 (.num kv.2.price)) record0

/-- Model of `saveMultiPriceToDatabase` in the multi-source revision of
the gold-price scraper: reading `data.prices.ny_price.price` throws a
TypeError when the `ny_price` entry is absent, which the catch handler
converts into `false` with no insert attempted; otherwise the row is
built and one insert is performed.  The second component counts the
insert calls made. -/
def saveMultiPriceToDatabase (data : MultiPriceData) (outcome : StoreOutcome) :
    Bool × ℕ :=
  match recordGet data.prices "ny_price" with
  | none => (false, 0)
  | some nyPd =>
    match insertRecord (saveMultiPriceRecord data nyPd) outcome with
    | .ok b => (b, 1)
    | .error _ => (false, 1)

/-- Model of `scrapeMultiSourceAndSave` in the multi-source revision of
the gold-price scraper: run `scrapeMultiSource`; a thrown error is caught
and reported as `false` and a `null` result is reported as `false`, in
both cases without touching the store; only a successful observation is
handed to `saveMultiPriceToDatabase`.  The second component counts the
persistence inserts performed. -/
def scrapeMultiSourceAndSave (cfg : MultiSourceConfig)
    (envs : ℕ → SourceEnv) (now : String) (retryCount : ℤ)
    (outcome : StoreOutcome) : Bool × ℕ :=
  match scrapeMultiSource (some cfg) envs now retryCount with
  | .failure _ => (false, 0)
  | .nullResult => (false, 0)
  | .success data => saveMultiPriceToDatabase data outcome

/-!
Browser-session cleanup, `BaseScraper.cleanup` in
`src/core/base-scraper.ts`.  The context and browser handles are
modelled by whether they are present and whether their `close()` call
would throw; the whole body sits in one try/catch whose handler only
logs.
-/

/-- Behaviour of a live handle's `close()` call. -/
inductive CloseBehavior where
  | closesOk
  | throwsOnClose
  deriving DecidableEq, Repr

/-- Browser-session state of a scraper: the optional context and browser
handles. -/
structure BrowserState where
  context : Option CloseBehavior
  browser : Option CloseBehavior
  deriving DecidableEq, Repr

/-- Observable action during `cleanup`. -/
inductive CleanupEvent where
  | contextClosed
  | browserClosed
  | errorLogged
  deriving DecidableEq, Repr

/-- Model of `BaseScraper.cleanup`: inside a single try block, close the
context and null its handle, then close the browser and null its handle;
any throw jumps to the catch handler, which logs the error and returns
normally.  In particular a throw while closing the context leaves the
context handle set and skips the browser close entirely. -/
def cleanup (s : BrowserState) : BrowserState × List CleanupEvent :=
  match s.context with
  | some .throwsOnClose => (s, [.errorLogged])
  | some .closesOk =>
    let s1 : BrowserState := { s with context := none }
    match s1.browser with
    | some .throwsOnClose => (s1, [.contextClosed, .errorLogged])
    | some .closesOk => ({ s1 with browser := none }, [.contextClosed, .browserClosed])
    | none => (s1, [.contextClosed])
  | none =>
    match s.browser with
    | some .throwsOnClose => (s, [.errorLogged])
    | some .closesOk => ({ s with browser := none }, [.browserClosed])
    | none => (s, [])

/-- C4: the price parser strips currency symbols, thousands separators
and surrounding whitespace from well-formed price strings and yields the
expected positive decimal (2048.75, 2048.75, 1999.10 for the three spec
examples); a string with no numeric content such as "N/A" yields 0, and
the downstream single-source validation rejects that 0 as an invalid
price. -/
theorem parsePrice_well_formed_and_invalid :
    parsePrice "$2,048.75" = .fin (2048.75 : ℚ) ∧
    parsePrice " 2048.75 " = .fin (2048.75 : ℚ) ∧
    parsePrice "€1,999.10" = .fin (1999.10 : ℚ) ∧
    parsePrice "N/A" = .fin 0 ∧
    (∀ (source : DataSourceConfig) (now : String),
      scrapeFromSingleSource source (.text "N/A") now =
        .error (.invalidPrice "N/A" (.fin 0))) := by
  refine ⟨?_, ?_, ?_, rfl, ?_⟩
  · simp +decide [parsePrice, parseFloat, parseFloatSigned, parseDecimal, digitsToNat,
      readExponent, readSignedExpDigits, isStrippedChar, jsWhitespace,
      List.filter, List.takeWhile, List.dropWhile, String.data]
    norm_num
  · simp +decide [parsePrice, parseFloat, parseFloatSigned, parseDecimal, digitsToNat,
      readExponent, readSignedExpDigits, isStrippedChar, jsWhitespace,
      List.filter, List.takeWhile, List.dropWhile, String.data]
    norm_num
  · simp +decide [parsePrice, parseFloat, parseFloatSigned, parseDecimal, digitsToNat,
      readExponent, readSignedExpDigits, isStrippedChar, jsWhitespace,
      List.filter, List.takeWhile, List.dropWhile, String.data]
    norm_num
  · intro source now
    rfl

/-- C5 counterexample: at the extracted text "Infinity" the parsed price
is not a finite number, yet the single-source scrape flow raises no
error and assembles an observation from that text, because the code only
rejects `price <= 0` and `Infinity <= 0` is false. -/
theorem scrapeSingle_accepts_infinity :
    (parsePrice "Infinity").isFinite = false ∧
    scrapeFromSingleSource ⟨"src", "url", "sel", "field", none⟩
        (.text "Infinity") "t" = .ok ⟨.posInf, "url", "USD", "t"⟩ ∧
    performScrape "url" (some "Infinity") "t" =
      .ok ⟨.posInf, "t", "url", "USD", "1d"⟩ :=
  ⟨rfl, rfl, rfl⟩

/-- C5 (amended): in the single-source scrape flow, when parsing the
extracted text yields NaN (coerced to 0) or a value `<= 0`, the flow
raises an error and does not assemble an observation from that text; a
non-finite positive parse result (`Infinity`) is however not rejected. -/
theorem scrapeSingle_rejects_nonpositive (source : DataSourceConfig)
    (targetUrl now text : String)
    (h : jsLeZero (parsePrice text) = true) :
    (∃ e, scrapeFromSingleSource source (.text text) now = .error e) ∧
    (∃ e, performScrape targetUrl (some text) now = .error e) := by
  constructor
  · by_cases ht : text = ""
    · subst ht
      exact ⟨.emptyPriceText source.selector, by simp [scrapeFromSingleSource]⟩
    · exact ⟨.invalidPrice text (parsePrice text),
        by simp [scrapeFromSingleSource, ht, h]⟩
  · exact ⟨.invalidPrice text (parsePrice text), by simp [performScrape, h]⟩

/-- Witness for the amended C5 at the extracted text "N/A", whose parse
result 0 fails the positivity check. -/
theorem scrapeSingle_rejects_nonpositive_witness :
    (∃ e, scrapeFromSingleSource ⟨"src", "url", "sel", "field", none⟩
        (.text "N/A") "t" = .error e) ∧
    (∃ e, performScrape "url" (some "N/A") "t" = .error e) :=
  scrapeSingle_rejects_nonpositive ⟨"src", "url", "sel", "field", none⟩
    "url" "t" "N/A" rfl

/-!
Auxiliary lemmas for the multi-source loop.  `successEntries` and
`delaySpec` restate, from the spec's description, which prices record and
how many inter-source sleeps a run of the loop should produce; the
lemmas show the loop refines them.
-/

/-- Successful scrape of one source, given the parsed value of its text:
the resulting observation carries the parsed price, the source URL and
the defaulted currency. -/
lemma scrapeFromSingleSource_text_ok (source : DataSourceConfig)
    (now text : String) (q : ℚ) (hne : text ≠ "")
    (hq : parsePrice text = .fin q) (hpos : 0 < q) :
    scrapeFromSingleSource source (.text text) now =
      .ok ⟨.fin q, source.url, jsOrDefault source.currency "USD", now⟩ := by
  simp only [scrapeFromSingleSource, hne, if_false, hq, jsLeZero]
  have : ¬(q ≤ 0) := not_le.mpr hpos
  simp [this]

/-- Expected contents of the prices record after the sequential loop
over the sources starting at position `i`: one entry per successful
source, in configured order, keyed by the source's field name and
holding that source's observation. -/
def successEntries (envs : ℕ → SourceEnv) (now : String) :
    List DataSourceConfig → ℕ → List (String × PriceData)
  | [], _ => []
  | source :: rest, i =>
    match scrapeFromSingleSource source (envs i) now with
    | .ok pd => (source.fieldName, pd) :: successEntries envs now rest (i + 1)
    | .error _ => successEntries envs now rest (i + 1)

/-- Expected number of inter-source sleeps of the loop as the code
performs them: one after each successful source that is not the last,
when a nonzero delay is configured. -/
def delaySpec (envs : ℕ → SourceEnv) (now : String) (delay : ℕ) :
    List DataSourceConfig → ℕ → ℕ
  | [], _ => 0
  | source :: rest, i =>
    (if rest ≠ [] ∧ delay ≠ 0 ∧
        (scrapeFromSingleSource source (envs i) now).isOk = true
     then 1 else 0) + delaySpec envs now delay rest (i + 1)

/-- Position of an attempt event, used to read the attempt order off a
trace. -/
def attemptedIndex : MultiEvent → Option ℕ
  | .attempted i => some i
  | .delayed => none

/-- Number of inter-source sleeps in a trace. -/
def delayedCount (evs : List MultiEvent) : ℕ :=
  evs.countP (fun ev => match ev with | .delayed => true | _ => false)

@[simp]
lemma delayedCount_nil : delayedCount [] = 0 := rfl

@[simp]
lemma delayedCount_cons_attempted (i : ℕ) (evs : List MultiEvent) :
    delayedCount (.attempted i :: evs) = delayedCount evs := by
  simp [delayedCount, List.countP_cons]

@[simp]
lemma delayedCount_cons_delayed (evs : List MultiEvent) :
    delayedCount (.delayed :: evs) = delayedCount evs + 1 := by
  simp [delayedCount, List.countP_cons]

@[simp]
lemma delayedCount_append (evs1 evs2 : List MultiEvent) :
    delayedCount (evs1 ++ evs2) = delayedCount evs1 + delayedCount evs2 :=
  List.countP_append _ _ _

/-- Setting a fresh key appends the binding at the end of the record. -/
lemma recordSet_fresh {β : Type} (m : List (String × β)) (k : String) (v : β)
    (h : k ∉ m.map Prod.fst) : recordSet m k v = m ++ [(k, v)] := by
  induction m with
  | nil => rfl
  | cons kv rest ih =>
    obtain ⟨k1, v1⟩ := kv
    simp only [List.map_cons, List.mem_cons] at h
    push_neg at h
    rw [recordSet]
    simp only [h.1.symm, if_false]
    simp [ih h.2]

/-- The sequential loop extends the accumulated record by exactly the
entries of the successful sources, in order, provided the configured
field names are distinct and do not collide with the accumulator. -/
lemma multiScrapeAux_prices (envs : ℕ → SourceEnv) (now : String) (d : ℕ) :
    ∀ (srcs : List DataSourceConfig) (i : ℕ) (acc : List (String × PriceData)),
    (srcs.map (fun s => s.fieldName)).Nodup →
    (∀ k, k ∈ srcs.map (fun s => s.fieldName) → k ∉ acc.map Prod.fst) →
    (multiScrapeAux envs now d srcs i acc).1 =
      acc ++ successEntries envs now srcs i := by
  intro srcs
  induction srcs with
  | nil => intro i acc _ _; simp [multiScrapeAux, successEntries]
  | cons source rest ih =>
    intro i acc hnodup hdisj
    simp only [List.map_cons, List.nodup_cons] at hnodup
    rw [multiScrapeAux, successEntries]
    cases h : scrapeFromSingleSource source (envs i) now with
    | ok pd =>
      have hfresh : source.fieldName ∉ acc.map Prod.fst :=
        hdisj source.fieldName (by simp)
      have hset := recordSet_fresh acc source.fieldName pd hfresh
      have hdisj2 : ∀ k, k ∈ rest.map (fun s => s.fieldName) →
          k ∉ (recordSet acc source.fieldName pd).map Prod.fst := by
        intro k hk
        rw [hset]
        simp only [List.map_append, List.mem_append]
        push_neg
        refine ⟨hdisj k (by simp [hk]), ?_⟩
        simp only [List.map_cons, List.map_nil, List.mem_singleton]
        intro hkf
        exact hnodup.1 (hkf ▸ hk)
      have hrec := ih (i + 1) (recordSet acc source.fieldName pd) hnodup.2 hdisj2
      show (multiScrapeAux envs now d rest (i + 1) (recordSet acc source.fieldName pd)).1 =
        acc ++ (source.fieldName, pd) :: successEntries envs now rest (i + 1)
      rw [hrec, hset]
      simp
    | error e =>
      have hrec := ih (i + 1) acc hnodup.2 (fun k hk => hdisj k (by simp [hk]))
      show (multiScrapeAux envs now d rest (i + 1) acc).1 =
        acc ++ successEntries envs now rest (i + 1)
      exact hrec

/-- With every source failing, the loop leaves the record untouched. -/
lemma multiScrapeAux_prices_all_fail (envs : ℕ → SourceEnv) (now : String) (d : ℕ) :
    ∀ (srcs : List DataSourceConfig) (i : ℕ) (acc : List (String × PriceData)),
    (∀ k (h : k < srcs.length),
      (scrapeFromSingleSource (srcs.get ⟨k, h⟩) (envs (i + k)) now).isOk = false) →
    (multiScrapeAux envs now d srcs i acc).1 = acc := by
  intro srcs
  induction srcs with
  | nil => intro i acc _; rfl
  | cons source rest ih =>
    intro i acc hfail
    have h0 := hfail 0 (by simp)
    simp only [List.get, Nat.add_zero] at h0
    rw [multiScrapeAux]
    cases h : scrapeFromSingleSource source (envs i) now with
    | ok pd => rw [h] at h0; simp [Except.isOk, Except.toBool] at h0
    | error e =>
      exact ih (i + 1) acc (fun k hk => by
        have := hfail (k + 1) (by simpa using Nat.succ_lt_succ hk)
        simpa [Nat.add_assoc, Nat.add_comm 1 k] using this)

/-- The loop attempts every source exactly once, in configured order. -/
lemma multiScrapeAux_attempts (envs : ℕ → SourceEnv) (now : String) (d : ℕ) :
    ∀ (srcs : List DataSourceConfig) (i : ℕ) (acc : List (String × PriceData)),
    (multiScrapeAux envs now d srcs i acc).2.filterMap attemptedIndex =
      List.range' i srcs.length := by
  intro srcs
  induction srcs with
  | nil => intro i acc; rfl
  | cons source rest ih =>
    intro i acc
    rw [multiScrapeAux, List.length_cons, List.range'_succ]
    cases h : scrapeFromSingleSource source (envs i) now with
    | ok pd =>
      by_cases hd : rest = [] ∨ d = 0 <;>
        simp [hd, List.filterMap_cons, List.filterMap_append, attemptedIndex, ih]
    | error e =>
      simp [List.filterMap_cons, attemptedIndex, ih]

/-- The loop sleeps exactly after each successful non-last source when a
nonzero delay is configured, and never after a failed source. -/
lemma multiScrapeAux_delays (envs : ℕ → SourceEnv) (now : String) (d : ℕ) :
    ∀ (srcs : List DataSourceConfig) (i : ℕ) (acc : List (String × PriceData)),
    delayedCount (multiScrapeAux envs now d srcs i acc).2 =
      delaySpec envs now d srcs i := by
  intro srcs
  induction srcs with
  | nil => intro i acc; rfl
  | cons source rest ih =>
    intro i acc
    rw [multiScrapeAux, delaySpec]
    cases h : scrapeFromSingleSource source (envs i) now with
    | ok pd =>
      have hokpd : (Except.ok pd : Except ScrapeError PriceData).isOk = true := rfl
      by_cases hrest : rest = []
      · subst hrest
        have hcond : ¬(([] : List DataSourceConfig) ≠ [] ∧ d ≠ 0 ∧
            (Except.ok pd : Except ScrapeError PriceData).isOk = true) := by tauto
        simp [hcond, ih]
      · by_cases hdz : d = 0
        · subst hdz
          have hcond : ¬(rest ≠ [] ∧ (0 : ℕ) ≠ 0 ∧
              (Except.ok pd : Except ScrapeError PriceData).isOk = true) := by tauto
          simp [hcond, hrest, ih]
        · have hcond : rest ≠ [] ∧ d ≠ 0 ∧
              (Except.ok pd : Except ScrapeError PriceData).isOk = true :=
            ⟨hrest, hdz, hokpd⟩
          have hd2 : ¬(rest = [] ∨ d = 0) := by tauto
          simp only [if_pos hcond, if_neg hd2]
          show delayedCount (.attempted i :: ([.delayed] ++
            (multiScrapeAux envs now d rest (i + 1)
              (recordSet acc source.fieldName pd)).2)) =
            1 + delaySpec envs now d rest (i + 1)
          simp [ih]
          omega
    | error e =>
      have hcond : ¬(rest ≠ [] ∧ d ≠ 0 ∧
          (Except.error e : Except ScrapeError PriceData).isOk = true) := by
        intro hc
        simpa [Except.isOk, Except.toBool] using hc.2.2
      simp [hcond, ih]

/-- The trace of the batch is the trace of the loop in sequential mode
and empty in the (unimplemented) parallel mode. -/
lemma performMultiSourceScrape_events (c : MultiSourceConfig)
    (envs : ℕ → SourceEnv) (now : String) :
    (performMultiSourceScrape (some c) envs now).2 =
      (if c.sequential then multiScrapeAux envs now c.delayBetweenSources c.sources 0 []
       else ([], [])).2 := by
  rw [performMultiSourceScrape]
  by_cases hs : c.sequential <;> simp [hs] <;> split <;> rfl

/-- A batch whose very first attempt succeeds comes out of the retry
engine as that success. -/
lemma withRetry_first_ok (fn : ℕ → Except ε α) (m : ℤ) (a : α)
    (h : fn 0 = .ok a) (hm : 1 ≤ m) :
    (withRetry fn m).2 = .success a := by
  have hgo := withRetryGo_success fn m.toNat 0 0 a (le_refl 0) (by omega)
    (fun j h1 h2 => absurd h2 (Nat.not_lt_zero j)) h
  exact hgo.1

/-- An operation that throws the same error on every attempt comes out
of the retry engine as that error re-raised. -/
lemma withRetry_const_error (fn : ℕ → Except ε α) (m : ℤ) (e : ε)
    (h : ∀ n, fn n = .error e) (hm : 1 ≤ m) :
    (withRetry fn m).2 = .failure e := by
  obtain ⟨e2, he2, hout, _⟩ := withRetryGo_allFail fn
    (fun j => by rw [h j]; rfl) m.toNat 0 (by omega)
  rw [h] at he2
  injection he2 with he3
  rw [he3]
  exact hout

/-- The expected prices record is nonempty as soon as one source
succeeds. -/
lemma successEntries_ne_nil (envs : ℕ → SourceEnv) (now : String) :
    ∀ (srcs : List DataSourceConfig) (i : ℕ),
    (∃ k, ∃ h : k < srcs.length,
      (scrapeFromSingleSource (srcs.get ⟨k, h⟩) (envs (i + k)) now).isOk = true) →
    successEntries envs now srcs i ≠ [] := by
  intro srcs
  induction srcs with
  | nil => intro i h; obtain ⟨k, hk, _⟩ := h; simp at hk
  | cons source rest ih =>
    intro i h
    rw [successEntries]
    cases hs : scrapeFromSingleSource source (envs i) now with
    | ok pd => simp
    | error e =>
      obtain ⟨k, hk, hok⟩ := h
      cases k with
      | zero =>
        simp only [List.get, Nat.add_zero] at hok
        rw [hs] at hok
        simp [Except.isOk, Except.toBool] at hok
      | succ k =>
        exact ih (i + 1) ⟨k, by simpa using Nat.lt_of_succ_lt_succ hk, by
          have heq : i + 1 + k = i + (k + 1) := by omega
          rw [heq]
          exact hok⟩

/-- The keys of the expected prices record are exactly the field names
of the successful sources, in configured order. -/
lemma successEntries_keys (envs : ℕ → SourceEnv) (now : String) :
    ∀ (srcs : List DataSourceConfig) (i : ℕ),
    (successEntries envs now srcs i).map Prod.fst =
      ((List.enumFrom i srcs).filter
        (fun p => (scrapeFromSingleSource p.2 (envs p.1) now).isOk)).map
        (fun p => p.2.fieldName) := by
  intro srcs
  induction srcs with
  | nil => intro i; rfl
  | cons source rest ih =>
    intro i
    rw [successEntries, List.enumFrom_cons]
    cases hs : scrapeFromSingleSource source (envs i) now with
    | ok pd => simp [List.filter_cons, hs, Except.isOk, Except.toBool, ih]
    | error e => simp [List.filter_cons, hs, Except.isOk, Except.toBool, ih]

/-- C2: in a multi-source batch over a non-empty source list with
pairwise-distinct field names, at least one successful source and at
least one failed source, the batch completes successfully (also through
the retry engine) and its prices record contains exactly one entry per
successful source, keyed by that source's field name and in configured
order, with no entry for any failed source. -/
theorem performMultiSourceScrape_partial_failure (c : MultiSourceConfig)
    (envs : ℕ → SourceEnv) (now : String) (retryCount : ℤ)
    (hseq : c.sequential = true)
    (hnodup : (c.sources.map (fun s => s.fieldName)).Nodup)
    (hsucc : ∃ k, ∃ h : k < c.sources.length,
      (scrapeFromSingleSource (c.sources.get ⟨k, h⟩) (envs k) now).isOk = true)
    (hfailone : ∃ k, ∃ h : k < c.sources.length,
      (scrapeFromSingleSource (c.sources.get ⟨k, h⟩) (envs k) now).isOk = false)
    (hretry : 1 ≤ retryCount) :
    ∃ data,
      (performMultiSourceScrape (some c) envs now).1 = .ok data ∧
      scrapeMultiSource (some c) envs now retryCount = .success data ∧
      data.prices = successEntries envs now c.sources 0 ∧
      data.prices.map Prod.fst =
        ((List.enumFrom 0 c.sources).filter
          (fun p => (scrapeFromSingleSource p.2 (envs p.1) now).isOk)).map
          (fun p => p.2.fieldName) := by
  have hprices : (multiScrapeAux envs now c.delayBetweenSources c.sources 0 []).1 =
      successEntries envs now c.sources 0 := by
    simpa using multiScrapeAux_prices envs now c.delayBetweenSources c.sources 0 []
      hnodup (fun k _ h => by simp at h)
  have hne : successEntries envs now c.sources 0 ≠ [] :=
    successEntries_ne_nil envs now c.sources 0 (by simpa using hsucc)
  have hempty : (multiScrapeAux envs now c.delayBetweenSources c.sources 0 []).1.isEmpty = false := by
    rw [hprices]
    simpa using hne
  have hok1 : (performMultiSourceScrape (some c) envs now).1 =
      .ok { price := (recordGet (successEntries envs now c.sources 0) "0").map
              (fun pd => pd.price),
            source := String.intercalate ", " (c.sources.map (fun s => s.url)),
            prices := successEntries envs now c.sources 0,
            created_at := now,
            time_period := "realtime" } := by
    have hempty2 : (successEntries envs now c.sources 0).isEmpty = false := by
      simpa using hne
    rw [performMultiSourceScrape]
    simp only [hseq, if_true, hprices, hempty2, Bool.false_eq_true, if_false]
  refine ⟨_, hok1, ?_, rfl, ?_⟩
  · exact withRetry_first_ok _ _ _ hok1 hretry
  · exact successEntries_keys envs now c.sources 0

/-- C3: when every configured source fails, the batch raises the
aggregate all-sources-failed error (also through the retry engine with a
positive budget), the scrape-and-save flow reports failure without
performing any persistence insert, and in general no successful batch
ever carries an empty prices record. -/
theorem scrapeMultiSource_total_failure (c : MultiSourceConfig)
    (envs : ℕ → SourceEnv) (now : String) (retryCount : ℤ)
    (outcome : StoreOutcome)
    (hretry : 1 ≤ retryCount)
    (hfail : ∀ k (h : k < c.sources.length),
      (scrapeFromSingleSource (c.sources.get ⟨k, h⟩) (envs k) now).isOk = false) :
    (performMultiSourceScrape (some c) envs now).1 = .error .allSourcesFailed ∧
    scrapeMultiSource (some c) envs now retryCount = .failure .allSourcesFailed ∧
    scrapeMultiSourceAndSave c envs now retryCount outcome = (false, 0) ∧
    (∀ (c2 : MultiSourceConfig) (envs2 : ℕ → SourceEnv) (now2 : String)
        (data : MultiPriceData),
      (performMultiSourceScrape (some c2) envs2 now2).1 = .ok data →
      data.prices ≠ []) := by
  have h1 : (performMultiSourceScrape (some c) envs now).1 = .error .allSourcesFailed := by
    rw [performMultiSourceScrape]
    by_cases hs : c.sequential
    · have hprices : (multiScrapeAux envs now c.delayBetweenSources c.sources 0 []).1 = [] :=
        multiScrapeAux_prices_all_fail envs now c.delayBetweenSources c.sources 0 []
          (by simpa using hfail)
      simp only [hs, if_true, hprices]
      rfl
    · simp [hs]
  have h2 : scrapeMultiSource (some c) envs now retryCount = .failure .allSourcesFailed := by
    rw [scrapeMultiSource]
    exact withRetry_const_error _ _ _ (fun _ => h1) hretry
  refine ⟨h1, h2, ?_, ?_⟩
  · rw [scrapeMultiSourceAndSave, h2]
  · intro c2 envs2 now2 data h
    rw [performMultiSourceScrape] at h
    by_cases he : (if c2.sequential then
        multiScrapeAux envs2 now2 c2.delayBetweenSources c2.sources 0 []
        else ([], [])).1.isEmpty
    · simp only [he, if_true] at h
      cases h
    · simp only [he, Bool.false_eq_true, if_false] at h
      have hdata := (Except.ok.inj h).symm
      have hpr : data.prices = (if c2.sequential then
          multiScrapeAux envs2 now2 c2.delayBetweenSources c2.sources 0 []
          else ([], [])).1 := by
        rw [hdata]
      rw [hpr]
      intro hnil
      rw [hnil] at he
      exact he rfl

/-- Concrete three-source configuration in the shape of
`setupMultiSourceMode`, used to exercise the multi-source theorems. -/
def cfgMulti : MultiSourceConfig :=
  { sources :=
      [⟨"NY gold", "https://u1", "sel", "ny_price", some "USD"⟩,
       ⟨"XAU spot", "https://u2", "sel", "xau_price", some "USD"⟩,
       ⟨"SH gold", "https://u3", "sel", "sh_price", some "CNY"⟩],
    sequential := true,
    delayBetweenSources := 3000 }

/-- Environment in which sources 1 and 3 yield parsable texts and source
2's selector never matches. -/
def envsPartial : ℕ → SourceEnv := fun i =>
  if i = 0 then .text "2050" else if i = 1 then .elementError else .text "480.5"

/-- Environment in which every source fails with an element-wait
failure. -/
def envsAllFail : ℕ → SourceEnv := fun _ => .elementError

/-- Witness for C2 at the concrete three-source batch where source 2
fails: the batch succeeds and the prices record holds exactly the
entries of sources 1 and 3. -/
theorem performMultiSourceScrape_partial_failure_witness :
    ∃ data,
      (performMultiSourceScrape (some cfgMulti) envsPartial "t").1 = .ok data ∧
      scrapeMultiSource (some cfgMulti) envsPartial "t" 2 = .success data ∧
      data.prices = successEntries envsPartial "t" cfgMulti.sources 0 ∧
      data.prices.map Prod.fst =
        ((List.enumFrom 0 cfgMulti.sources).filter
          (fun p => (scrapeFromSingleSource p.2 (envsPartial p.1) "t").isOk)).map
          (fun p => p.2.fieldName) := by
  have hp1 : parsePrice "2050" = .fin (2050 : ℚ) := by
    simp +decide [parsePrice, parseFloat, parseFloatSigned, parseDecimal, digitsToNat,
      readExponent, readSignedExpDigits, isStrippedChar, jsWhitespace,
      List.filter, List.takeWhile, List.dropWhile, String.data]
  apply performMultiSourceScrape_partial_failure cfgMulti envsPartial "t" 2 rfl
    (by decide) ?_ ?_ (by norm_num)
  · refine ⟨0, by decide, ?_⟩
    have h0 : scrapeFromSingleSource
        (⟨"NY gold", "https://u1", "sel", "ny_price", some "USD"⟩ : DataSourceConfig)
        (.text "2050") "t" =
        .ok ⟨.fin 2050, "https://u1", jsOrDefault (some "USD") "USD", "t"⟩ :=
      scrapeFromSingleSource_text_ok _ "t" "2050" 2050 (by decide) hp1 (by norm_num)
    show (scrapeFromSingleSource
        (⟨"NY gold", "https://u1", "sel", "ny_price", some "USD"⟩ : DataSourceConfig)
        (.text "2050") "t").isOk = true
    rw [h0]
    rfl
  · exact ⟨1, by decide, rfl⟩

/-- Witness for C3 at the concrete three-source batch where every source
fails: the aggregate error is raised and no insert is made. -/
theorem scrapeMultiSource_total_failure_witness :
    (performMultiSourceScrape (some cfgMulti) envsAllFail "t").1 =
      .error .allSourcesFailed ∧
    scrapeMultiSource (some cfgMulti) envsAllFail "t" 2 =
      .failure .allSourcesFailed ∧
    scrapeMultiSourceAndSave cfgMulti envsAllFail "t" 2 .success = (false, 0) := by
  have h := scrapeMultiSource_total_failure cfgMulti envsAllFail "t" 2 .success
    (by norm_num) (fun k hk => rfl)
  exact ⟨h.1, h.2.1, h.2.2.1⟩

/-- C6 (amended): in sequential mode the sources of one batch are
attempted strictly in configured order, one after another; the
inter-source delay is slept after each successful source that is not the
last when a nonzero delay is configured, while after a failed source the
next source is attempted with no delay. -/
theorem multiSource_sequential_order_and_delay (c : MultiSourceConfig)
    (envs : ℕ → SourceEnv) (now : String) (hseq : c.sequential = true) :
    (performMultiSourceScrape (some c) envs now).2.filterMap attemptedIndex =
      List.range c.sources.length ∧
    delayedCount (performMultiSourceScrape (some c) envs now).2 =
      delaySpec envs now c.delayBetweenSources c.sources 0 := by
  rw [performMultiSourceScrape_events]
  simp only [hseq, if_true]
  constructor
  · rw [multiScrapeAux_attempts, List.range_eq_range']
  · exact multiScrapeAux_delays envs now c.delayBetweenSources c.sources 0 []

/-- Concrete two-source configuration with a nonzero inter-source delay,
whose first source fails. -/
def cfgTwo : MultiSourceConfig :=
  { sources :=
      [⟨"A", "https://a", "sel", "a_price", none⟩,
       ⟨"B", "https://b", "sel", "b_price", none⟩],
    sequential := true,
    delayBetweenSources := 2000 }

/-- Environment in which source 1 fails and source 2 yields a parsable
text. -/
def envsTwo : ℕ → SourceEnv := fun i =>
  if i = 0 then .elementError else .text "2050"

/-- C6 counterexample: with a 2000 ms delay configured and two sources of
which the first fails, the batch trace is attempt 0 directly followed by
attempt 1 with no inter-source sleep between them — the delay is not
applied after the failed source, contrary to the claim that it is applied
between every pair of consecutive sources regardless of outcome. -/
theorem multiSource_no_delay_after_failure :
    cfgTwo.delayBetweenSources = 2000 ∧
    cfgTwo.sources.length = 2 ∧
    (performMultiSourceScrape (some cfgTwo) envsTwo "t").2 =
      [.attempted 0, .attempted 1] := by
  have hp1 : parsePrice "2050" = .fin (2050 : ℚ) := by
    simp +decide [parsePrice, parseFloat, parseFloatSigned, parseDecimal, digitsToNat,
      readExponent, readSignedExpDigits, isStrippedChar, jsWhitespace,
      List.filter, List.takeWhile, List.dropWhile, String.data]
  have hB : scrapeFromSingleSource
      (⟨"B", "https://b", "sel", "b_price", none⟩ : DataSourceConfig)
      (.text "2050") "t" =
      .ok ⟨.fin 2050, "https://b", jsOrDefault none "USD", "t"⟩ :=
    scrapeFromSingleSource_text_ok _ "t" "2050" 2050 (by decide) hp1 (by norm_num)
  refine ⟨rfl, rfl, ?_⟩
  rw [performMultiSourceScrape_events]
  show (multiScrapeAux envsTwo "t" 2000 cfgTwo.sources 0 []).2 =
    [.attempted 0, .attempted 1]
  rw [show cfgTwo.sources =
    [⟨"A", "https://a", "sel", "a_price", none⟩,
     ⟨"B", "https://b", "sel", "b_price", none⟩] from rfl]
  rw [multiScrapeAux]
  rw [show envsTwo 0 = .elementError from rfl]
  rw [show scrapeFromSingleSource
      (⟨"A", "https://a", "sel", "a_price", none⟩ : DataSourceConfig)
      .elementError "t" = .error .elementNotFound from rfl]
  rw [multiScrapeAux]
  rw [show envsTwo 1 = .text "2050" from rfl]
  rw [hB]
  rfl

/-- Witness for the amended C6 at the concrete two-source batch: both
sources are attempted in order and the number of sleeps is zero, as the
delay specification prescribes for a failed first source and a last
source. -/
theorem multiSource_sequential_order_and_delay_witness :
    (performMultiSourceScrape (some cfgTwo) envsTwo "t").2.filterMap attemptedIndex =
      [0, 1] ∧
    delayedCount (performMultiSourceScrape (some cfgTwo) envsTwo "t").2 =
      delaySpec envsTwo "t" cfgTwo.delayBetweenSources cfgTwo.sources 0 := by
  have h := multiSource_sequential_order_and_delay cfgTwo envsTwo "t" rfl
  exact ⟨by rw [h.1]; rfl, h.2⟩

/-- C7 counterexample: with a context whose close throws and a healthy
browser, `cleanup` merely logs the error — the browser close is never
attempted and both handles stay set, so a context close error does
prevent the attempt to close the browser. -/
theorem cleanup_context_error_blocks_browser_close :
    cleanup ⟨some .throwsOnClose, some .closesOk⟩ =
      (⟨some .throwsOnClose, some .closesOk⟩, [.errorLogged]) ∧
    CleanupEvent.browserClosed ∉ (cleanup ⟨some .throwsOnClose, some .closesOk⟩).2 :=
  ⟨rfl, by decide⟩

/-- C7 (amended): `cleanup` closes the context and then the browser and
never re-raises a close error; after an error-free cleanup both handles
are null and calling `cleanup` again is a no-op; but an error thrown
while closing the context is caught by the single surrounding handler,
which skips that call's browser close attempt and leaves both handles
unchanged. -/
theorem cleanup_spec (s : BrowserState)
    (hc : s.context ≠ some .throwsOnClose)
    (hb : s.browser ≠ some .throwsOnClose) :
    (cleanup s).1 = ⟨none, none⟩ ∧
    cleanup (cleanup s).1 = (⟨none, none⟩, []) ∧
    (s.context = some .closesOk → s.browser = some .closesOk →
      (cleanup s).2 = [.contextClosed, .browserClosed]) ∧
    (∀ s2 : BrowserState, s2.context = some .throwsOnClose →
      (cleanup s2).1 = s2 ∧
      CleanupEvent.browserClosed ∉ (cleanup s2).2 ∧
      CleanupEvent.errorLogged ∈ (cleanup s2).2) := by
  have hthrow : ∀ s2 : BrowserState, s2.context = some .throwsOnClose →
      (cleanup s2).1 = s2 ∧
      CleanupEvent.browserClosed ∉ (cleanup s2).2 ∧
      CleanupEvent.errorLogged ∈ (cleanup s2).2 := by
    intro s2 h
    obtain ⟨co2, bo2⟩ := s2
    have h2 : co2 = some .throwsOnClose := h
    subst h2
    have he : (cleanup ⟨some .throwsOnClose, bo2⟩).2 = [.errorLogged] := rfl
    exact ⟨rfl, by rw [he]; decide, by rw [he]; decide⟩
  obtain ⟨co, bo⟩ := s
  rcases co with _ | cb
  · rcases bo with _ | bb
    · exact ⟨rfl, rfl, fun h _ => Option.noConfusion h, hthrow⟩
    · cases bb
      · exact ⟨rfl, rfl, fun h _ => Option.noConfusion h, hthrow⟩
      · exact absurd rfl hb
  · cases cb
    · rcases bo with _ | bb
      · exact ⟨rfl, rfl, fun _ h => Option.noConfusion h, hthrow⟩
      · cases bb
        · exact ⟨rfl, rfl, fun _ _ => rfl, hthrow⟩
        · exact absurd rfl hb
    · exact absurd rfl hc

/-- Witness for the amended C7 at a live session whose two closes both
succeed: cleanup nulls both handles in context-then-browser order and a
second cleanup is a no-op. -/
theorem cleanup_spec_witness :
    (cleanup ⟨some .closesOk, some .closesOk⟩).1 = ⟨none, none⟩ ∧
    (cleanup ⟨some .closesOk, some .closesOk⟩).2 =
      [.contextClosed, .browserClosed] ∧
    cleanup (cleanup ⟨some .closesOk, some .closesOk⟩).1 = (⟨none, none⟩, []) := by
  have h := cleanup_spec ⟨some .closesOk, some .closesOk⟩ (by decide) (by decide)
  exact ⟨h.1, h.2.2.1 rfl rfl, h.2.1⟩

/-- C8: the persistence gateway's single-row insert always returns a
boolean and never propagates an exception to its caller: a store error
result and a thrown store-client exception are both caught and converted
into the return value `false`, and `true` is returned exactly on a clean
insert, so a successful scrape with a failed save is distinguishable
from a failed scrape. -/
theorem insertRecord_never_throws (record : List (String × FieldValue))
    (outcome : StoreOutcome) :
    (∃ b, insertRecord record outcome = .ok b) ∧
    (insertRecord record outcome = .ok true ↔ outcome = .success) := by
  cases outcome <;> simp [insertRecord, insertRecordBody]

/-- Membership of a key in a record survives any update. -/
lemma recordSet_keys_mono {β : Type} (m : List (String × β)) (k2 k : String)
    (v : β) (h : k ∈ m.map Prod.fst) :
    k ∈ (recordSet m k2 v).map Prod.fst := by
  induction m with
  | nil => simp at h
  | cons kv rest ih =>
    obtain ⟨k1, v1⟩ := kv
    rw [recordSet]
    by_cases he : k1 = k2
    · simp only [he, if_true]
      simp only [List.map_cons, List.mem_cons] at h ⊢
      rcases h with h | h
      · left; rw [h, he]
      · right; exact h
    · simp only [he, if_false]
      simp only [List.map_cons, List.mem_cons] at h ⊢
      rcases h with h | h
      · left; exact h
      · right; exact ih h

/-- Membership of a key in a record survives a whole fold of updates. -/
lemma foldl_recordSet_keys_mono {β γ : Type} (f : γ → String) (g : γ → β)
    (k : String) :
    ∀ (l : List γ) (base : List (String × β)), k ∈ base.map Prod.fst →
    k ∈ (l.foldl (fun rec kv => recordSet rec (f kv) (g kv)) base).map Prod.fst := by
  intro l
  induction l with
  | nil => intro base h; simpa using h
  | cons x rest ih =>
    intro base h
    exact ih (recordSet base (f x) (g x)) (recordSet_keys_mono base (f x) k (g x) h)

/-- C9 (refuted by the code): every row the scrape flows hand to the
persistence insert carries a client-supplied `created_at` column copied
from the observation assembled at scrape time — both the single-source
save and the multi-source save include it — although the gateway's
declared insert payload type omits `created_at` and the store schema
assigns it a default at insert time. -/
theorem persisted_record_contains_created_at (data : GoldPriceData)
    (mdata : MultiPriceData) (nyPd : PriceData) :
    recordGet (saveToDatabaseRecord data) "created_at" =
      some (.str data.created_at) ∧
    "created_at" ∈ (saveMultiPriceRecord mdata nyPd).map Prod.fst := by
  constructor
  · rfl
  · exact foldl_recordSet_keys_mono (fun kv => kv.1)
      (fun kv => FieldValue.num kv.2.price) "created_at" mdata.prices
      [("price", .num nyPd.price),
       ("currency", .str nyPd.currency),
       ("source", .str nyPd.source),
       ("created_at", .str mdata.created_at),
       ("time_period", .str (if mdata.time_period = "" then "realtime"
          else mdata.time_period))]
      (by simp)

end NodejsWebTools
